import Mathlib

/-!
Verification of the two scripts of this repository against their
natural-language specification.

Pipeline A (`plot_growth.py`) is embedded as a trace-producing function over
the data-file column names and the subgroups-file lines; the numpy aggregation
is embedded over `ℝ`.  Pipeline B (`trim_vector.py`) is embedded as a
per-record extractor plus a per-file/batch trace function.  Python string
primitives (`str.split`, `str.strip`, `int`, slicing) are embedded at the
character-list level with CPython semantics.
-/

set_option maxHeartbeats 1000000

/-! ### Python string primitives -/

/-- Embedding of Python `s.split(sep)` for a one-character separator, at the
character-list level.  Python returns `[""]` on the empty string and keeps
empty fields, so the result is always non-empty. -/
def pySplitCh (sep : Char) : List Char → List (List Char)
  | [] => [[]]
  | c :: cs =>
    let r := pySplitCh sep cs
    if c = sep then [] :: r
    else (c :: r.headD []) :: r.tail

/-- Embedding of Python `s.split(sep)` on `String`s. -/
def pySplit (s : String) (sep : Char) : List String :=
  (pySplitCh sep s.toList).map (fun l => String.mk l)

/-- Joining a split back with the separator; used to relate the pieces of
`pySplitCh` to the original string. -/
def joinSep (sep : Char) : List (List Char) → List Char
  | [] => []
  | [p] => p
  | p :: q :: ps => p ++ sep :: joinSep sep (q :: ps)

/-- Embedding of Python `s.strip()` at the character-list level. -/
def pyTrim (l : List Char) : List Char :=
  ((l.dropWhile Char.isWhitespace).reverse.dropWhile Char.isWhitespace).reverse

/-- Embedding of Python `s.strip()` on `String`s. -/
def pyStrip (s : String) : String :=
  String.mk (pyTrim s.toList)

/-- Value of a list of decimal digits. -/
def digitsVal (l : List Char) : Nat :=
  l.foldl (fun acc c => acc * 10 + (c.toNat - 48)) 0

/-- Embedding of Python `int(s)`: optional surrounding whitespace, optional
sign, then a non-empty run of decimal digits; `none` models `ValueError`. -/
def pyIntList? (l : List Char) : Option Int :=
  let t := pyTrim l
  match t with
  | '-' :: ds =>
    if ds ≠ [] ∧ ds.all Char.isDigit then some (-(digitsVal ds : Int)) else none
  | '+' :: ds =>
    if ds ≠ [] ∧ ds.all Char.isDigit then some ((digitsVal ds : Int)) else none
  | ds =>
    if ds ≠ [] ∧ ds.all Char.isDigit then some ((digitsVal ds : Int)) else none

/-- Embedding of Python `int(s)` on `String`s. -/
def pyInt? (s : String) : Option Int :=
  pyIntList? s.toList

/-- CPython slice-index normalisation: negative indices count from the end,
then the index is clamped to `[0, n]`. -/
def pyIndex (n : Nat) (i : Int) : Int :=
  if i < 0 then max ((n : Int) + i) 0 else min i n

/-- Embedding of Python `l[a:b]` at the character-list level. -/
def pySliceList (l : List Char) (a b : Int) : List Char :=
  (l.drop (pyIndex l.length a).toNat).take ((pyIndex l.length b) - (pyIndex l.length a)).toNat

/-- Embedding of Python `s[a:b]` on `String`s. -/
def pySlice (s : String) (a b : Int) : String :=
  String.mk (pySliceList s.toList a b)

/-! ### plot_growth.py : the Triplicate Validator -/

/-- Embedding of `''.join(s.split("_")[0:-1])` (plot_growth.py lines 101-103),
the base identifier actually computed by the script: all underscore-separated
segments except the last, concatenated WITHOUT separators. -/
def pyBaseList (l : List Char) : List Char :=
  List.flatten ((pySplitCh '_' l).dropLast)

/-- String form of `pyBaseList`. -/
def pyBase (s : String) : String :=
  String.mk (pyBaseList s.toList)

/-- Modelled from the spec: the base identifier in the spec's words, "the name
with its trailing underscore suffix removed", i.e. everything before the last
underscore (underscores between earlier segments are kept). -/
def specBaseList (l : List Char) : List Char :=
  (((l.reverse.dropWhile (fun c => c != '_')).drop 1)).reverse

/-- String form of `specBaseList`. -/
def specBase (s : String) : String :=
  String.mk (specBaseList s.toList)

/-- Embedding of `check_samplename` (plot_growth.py lines 97-108).  The guard
`len(s1.split("_")[0:-1]) > 0` inspects only the FIRST name; when it fails the
variables `base1..base3` are never assigned and the comparison on line 105
raises `NameError`, modelled as `none`. -/
def check_samplename (s1 s2 s3 : String) : Option Bool :=
  if 0 < ((pySplitCh '_' s1.toList).dropLast).length then
    some ((pyBase s1 == pyBase s2) && (pyBase s2 == pyBase s3))
  else
    none

/-! ### plot_growth.py : pipeline trace model -/

/-- Observable events of Pipeline A.  `created f` is emitted when the script
opens the `PdfPages` output `f` (the file appears on disk at open time);
`printed` covers the diagnostic messages; `exited` is `sys.exit()`; `crashed`
is an uncaught Python exception.  Progress prints are elided. -/
inductive Event where
  | printed (msg : String)
  | created (file : String)
  | exited
  | crashed
deriving DecidableEq, Repr

/-- Diagnostic of plot_growth.py line 83. -/
def msgYlimit : String :=
  "Whoops, please provide a numerical value for the y axis upper limit."

/-- Diagnostic of plot_growth.py line 124. -/
def msgMult3 : String :=
  "Whoops, sample number is not a multiple of 3."

/-- Diagnostic of plot_growth.py line 132. -/
def msgTriplicate : String :=
  "Whoops, check that your triplicate samples are labeled correctly."

/-- Diagnostic of plot_growth.py line 236. -/
def msgSubNames : String :=
  "Whoops, check that your subgroup sample names are labeled correctly."

/-- Diagnostic of plot_growth.py line 242. -/
def msgSubMembership : String :=
  "Whoops, check that your subgroup sample names correspond to the sample names in your data file."

/-- Result of a `for i in range(.., .., 3)` loop of `check_samplename` calls
over a list of names (plot_growth.py lines 129-133 and 233-237).  `failed`
means some call returned `False` (diagnostic + `sys.exit`), `nameError` means
a call raised, `indexError` means `samples[i+1]` or `samples[i+2]` was out of
range. -/
inductive CheckRes where
  | allOk
  | failed
  | nameError
  | indexError
deriving DecidableEq, Repr

/-- Runs `check_samplename` on consecutive runs of three names, stopping at
the first abnormal outcome, as the range-step-3 loops do. -/
def runChecks : List String → CheckRes
  | [] => CheckRes.allOk
  | s1 :: s2 :: s3 :: rest =>
    match check_samplename s1 s2 s3 with
    | none => CheckRes.nameError
    | some false => CheckRes.failed
    | some true => runChecks rest
  | _ => CheckRes.indexError

/-- Result of the subgroup column-membership loop. -/
inductive MembRes where
  | ok
  | failed
  | indexError
deriving DecidableEq, Repr

/-- Embedding of the membership loop (plot_growth.py lines 240-243).  The
Python condition is `not (samples[i] in col_names) and (samples[i+1] in
col_names) and (samples[i+2] in col_names)`: `not` binds tighter than `and`,
so the script exits only when the FIRST name of a run is absent while the
other two are present.  Short-circuiting of `and` is preserved in the
leftover cases (reachable only on malformed runs). -/
def membershipCheck (cols : List String) : List String → MembRes
  | [] => MembRes.ok
  | s1 :: s2 :: s3 :: rest =>
    if (¬ (s1 ∈ cols)) ∧ (s2 ∈ cols) ∧ (s3 ∈ cols) then MembRes.failed
    else membershipCheck cols rest
  | [s1] =>
    if ¬ (s1 ∈ cols) then MembRes.indexError else MembRes.ok
  | [s1, s2] =>
    if (¬ (s1 ∈ cols)) ∧ (s2 ∈ cols) then MembRes.indexError else MembRes.ok

/-- Result of validating one subgroups-file line. -/
inductive ValRes where
  | ok
  | exitBadNames
  | exitBadMembership
  | crash
deriving DecidableEq, Repr

/-- Embedding of the per-line validation of the subgroups file
(plot_growth.py lines 225-243): skip blank lines, split on tabs, run the
triplicate-name loop, then the membership loop. -/
def validateLine (cols : List String) (line : String) : ValRes :=
  if pyStrip line = "" then ValRes.ok
  else
    match runChecks (pySplit (pyStrip line) '\t') with
    | CheckRes.failed => ValRes.exitBadNames
    | CheckRes.nameError => ValRes.crash
    | CheckRes.indexError => ValRes.crash
    | CheckRes.allOk =>
      match membershipCheck cols (pySplit (pyStrip line) '\t') with
      | MembRes.failed => ValRes.exitBadMembership
      | MembRes.indexError => ValRes.crash
      | MembRes.ok => ValRes.ok

/-- Validation pass over all subgroups-file lines, stopping at the first
abnormal line. -/
def validateLines (cols : List String) : List String → ValRes
  | [] => ValRes.ok
  | l :: rest =>
    match validateLine cols l with
    | ValRes.ok => validateLines cols rest
    | r => r

/-- Whether the PLOT 3 rendering loop over one run of three column accesses
(`data[samples[i]]` etc., plot_growth.py lines 271-277) completes without a
`KeyError`/`IndexError`. -/
def plotGroupsOk (cols : List String) : List String → Bool
  | [] => true
  | s1 :: s2 :: s3 :: rest =>
    cols.contains s1 && cols.contains s2 && cols.contains s3 && plotGroupsOk cols rest
  | _ => false

/-- PLOT 3 rendering of one subgroups-file line. -/
def plotLineOk (cols : List String) (line : String) : Bool :=
  if pyStrip line = "" then true
  else plotGroupsOk cols (pySplit (pyStrip line) '\t')

/-- PLOT 3 rendering of all subgroups-file lines. -/
def plotLinesOk (cols : List String) (lines : List String) : Bool :=
  lines.all (plotLineOk cols)

/-- Trace model of Pipeline A (plot_growth.py lines 76-318), for invocations
providing both required arguments.  `ylimitOk` is whether `float(sys.argv[2])`
succeeded: on failure the script only PRINTS the diagnostic (no `sys.exit` in
the `except` branch, lines 82-83), leaving `ylimit` unbound, which raises
`NameError` at `plt.ylim(0, ylimit)` on line 160 - after `plot_allsamples.pdf`
has been opened.  `colNames` are the loaded table's column names (accessing
`data['Time']` on line 118 raises if absent); `subgroupLines` is the optional
subgroups file as raw lines.  Output files are opened before the rendering
loops run; subgroup validation (lines 219-243) happens only after PLOT 1 and
PLOT 2 are written. -/
def runPipelineA (ylimitOk : Bool) (colNames : List String)
    (subgroupLines : Option (List String)) : List Event :=
  let ev0 : List Event := if ylimitOk then [] else [Event.printed msgYlimit]
  if "Time" ∈ colNames then
    if (colNames.length - 1) % 3 ≠ 0 then
      ev0 ++ [Event.printed msgMult3, Event.exited]
    else
      match runChecks (colNames.drop 1) with
      | CheckRes.failed => ev0 ++ [Event.printed msgTriplicate, Event.exited]
      | CheckRes.nameError => ev0 ++ [Event.crashed]
      | CheckRes.indexError => ev0 ++ [Event.crashed]
      | CheckRes.allOk =>
        let ev1 := ev0 ++ [Event.created "plot_allsamples.pdf"]
        if ylimitOk then
          let ev2 := ev1 ++ [Event.created "plot_triplicates.pdf"]
          match subgroupLines with
          | none => ev2
          | some lines =>
            match validateLines colNames lines with
            | ValRes.exitBadNames => ev2 ++ [Event.printed msgSubNames, Event.exited]
            | ValRes.exitBadMembership => ev2 ++ [Event.printed msgSubMembership, Event.exited]
            | ValRes.crash => ev2 ++ [Event.crashed]
            | ValRes.ok =>
              let ev3 := ev2 ++ [Event.created "plot_subgroups.pdf"]
              if plotLinesOk colNames lines then ev3 else ev3 ++ [Event.crashed]
        else
          ev1 ++ [Event.crashed]
  else
    ev0 ++ [Event.crashed]

/-! ### plot_growth.py : the Aggregator -/

/-- Embedding of numpy `ndarray.mean` over one column of readings (floats
modelled as reals): sum divided by the number of entries. -/
noncomputable def npMean (v : List ℝ) : ℝ :=
  v.sum / v.length

/-- Embedding of numpy `ndarray.std` with its default `ddof=0` over one
column: the square root of the mean squared deviation (population standard
deviation, divisor `len(v)`). -/
noncomputable def npStd (v : List ℝ) : ℝ :=
  Real.sqrt ((v.map (fun x => (x - npMean v) ^ 2)).sum / v.length)

/-- The columns of the 3-by-T array `np.asarray((first, second, third))`
(plot_growth.py lines 147-150): the triple of readings at each shared time
index. -/
def columns : List ℝ → List ℝ → List ℝ → List (List ℝ)
  | a :: as, b :: bs, c :: cs => [a, b, c] :: columns as bs cs
  | _, _, _ => []

/-- Embedding of `three_array.mean(axis=0)` (plot_growth.py line 151). -/
noncomputable def aggMean (xs ys zs : List ℝ) : List ℝ :=
  (columns xs ys zs).map npMean

/-- Embedding of `three_array.std(axis=0)` (plot_growth.py line 152). -/
noncomputable def aggStd (xs ys zs : List ℝ) : List ℝ :=
  (columns xs ys zs).map npStd

/-! ### trim_vector.py : the Sequence Trim Extractor -/

/-- A fasta record as Biopython presents it: identifier, full description
line, and sequence. -/
structure FastaRecord where
  id : String
  description : String
  seq : String
deriving DecidableEq, Repr

/-- Embedding of the STEP 3 record transformation (trim_vector.py lines
74-82): parse the last two space-separated tokens of the description as
integers `e` and `s`, subtract one from each, slice `seq[s-1:e-1]`, and build
the new record with id suffix `-trimmed` and description
`"<s-1>-<e-1> <len>"`.  `none` models the `ValueError`/`IndexError` raised
when the description does not end in two parseable integers. -/
def extractRecord (r : FastaRecord) : Option FastaRecord :=
  match (pySplit r.description ' ').reverse with
  | tLast :: tPrev :: _ =>
    match pyInt? tLast, pyInt? tPrev with
    | some eTok, some sTok =>
      let insert_end := eTok - 1
      let insert_start := sTok - 1
      let insert_seq := pySlice r.seq insert_start insert_end
      some { id := r.id ++ "-trimmed"
             description :=
               toString insert_start ++ "-" ++ toString insert_end ++ " "
                 ++ toString insert_seq.length
             seq := insert_seq }
    | _, _ => none
  | _ => none

/-- Events of Pipeline B.  `wrote f c` is one `SeqIO.write(new_record, f,
"fasta")` call: passing a FILENAME re-opens `f` in write mode, so the file
contents after the call are exactly `c` (the single new record). -/
inductive BEvent where
  | printed (msg : String)
  | wrote (file : String) (content : List FastaRecord)
  | crashed
deriving DecidableEq, Repr

/-- Write events of the STEP 3 loop (trim_vector.py lines 72-85) over the
records of the lucy output file. -/
def step3Events (file : String) : List FastaRecord → List BEvent
  | [] => []
  | r :: rest =>
    match extractRecord r with
    | none => [BEvent.crashed]
    | some nr => BEvent.wrote file [nr] :: step3Events file rest

/-- Whether the STEP 3 loop raises on some record. -/
def step3Crashes : List FastaRecord → Bool
  | [] => false
  | r :: rest =>
    match extractRecord r with
    | none => true
    | some _ => step3Crashes rest

/-- Final contents of the per-file trimmed output after the STEP 3 loop:
inner `none` means the file was never created, and each iteration REPLACES
the contents because `SeqIO.write` is called with the filename; outer `none`
models a raised exception. -/
def step3Final : List FastaRecord → Option (List FastaRecord) → Option (Option (List FastaRecord))
  | [], fs => some (fs)
  | r :: rest, _fs =>
    match extractRecord r with
    | none => none
    | some nr => step3Final rest (some [nr])

/-- One input file of Pipeline B as seen by the script: the cleaned basename,
the exit code `subprocess.call` returned for lucy, and the records of the
lucy output fasta (`none` when the file does not exist, in which case
`SeqIO.parse` raises `IOError`). -/
structure LucyRun where
  basename : String
  exitCode : Int
  output : Option (List FastaRecord)
deriving DecidableEq, Repr

/-- Trace of processing one input file (trim_vector.py lines 62-87).  The
exit code is tested ONLY to pick the printed message (lines 63-66): STEP 3
runs unconditionally afterwards. -/
def processOne (lr : LucyRun) : List BEvent × Bool :=
  let lucyMsg :=
    if lr.exitCode = 0 then "Done running Lucy."
    else "Whoops, something went wrong with Lucy!"
  match lr.output with
  | none => ([BEvent.printed lucyMsg, BEvent.crashed], true)
  | some records =>
    if step3Crashes records then
      (BEvent.printed lucyMsg :: step3Events (lr.basename ++ "_trimmed.fasta") records, true)
    else
      (BEvent.printed lucyMsg :: step3Events (lr.basename ++ "_trimmed.fasta") records
        ++ [BEvent.printed "Done trimming."], false)

/-- Trace of the sorted batch loop (trim_vector.py lines 37-89): an uncaught
exception in one file terminates the whole script, otherwise processing
continues with the next file. -/
def runBatch : List LucyRun → List BEvent
  | [] => []
  | lr :: rest =>
    match processOne lr with
    | (ev, true) => ev
    | (ev, false) => ev ++ runBatch rest

lemma pySplitCh_ne_nil (sep : Char) (l : List Char) : pySplitCh sep l ≠ [] := by
  cases l with
  | nil => simp [pySplitCh]
  | cons c cs =>
    simp only [pySplitCh]
    split <;> simp

lemma length_pySplitCh (sep : Char) (l : List Char) :
    (pySplitCh sep l).length = l.count sep + 1 := by
  induction l with
  | nil => simp [pySplitCh]
  | cons c cs ih =>
    simp only [pySplitCh]
    by_cases h : c = sep
    · subst h
      simp [List.count_cons, ih]
    · have hne := pySplitCh_ne_nil sep cs
      have hlen : (pySplitCh sep cs).length ≠ 0 := by
        simpa [List.length_eq_zero] using hne
      simp only [if_neg h, List.length_cons, List.length_tail]
      rw [List.count_cons]
      simp only [beq_iff_eq, if_neg h]
      omega

lemma joinSep_pySplitCh (sep : Char) (l : List Char) :
    joinSep sep (pySplitCh sep l) = l := by
  induction l with
  | nil => rfl
  | cons c cs ih =>
    simp only [pySplitCh]
    by_cases h : c = sep
    · rw [if_pos h]
      obtain ⟨p, ps, hps⟩ := List.exists_cons_of_ne_nil (pySplitCh_ne_nil sep cs)
      rw [hps] at ih ⊢
      simp [joinSep, ih, h]
    · rw [if_neg h]
      obtain ⟨p, ps, hps⟩ := List.exists_cons_of_ne_nil (pySplitCh_ne_nil sep cs)
      rw [hps] at ih ⊢
      cases ps with
      | nil => simpa [joinSep] using ih
      | cons q qs => simpa [joinSep] using ih

lemma pySplitCh_sep_not_mem (sep : Char) (l : List Char) :
    ∀ p ∈ pySplitCh sep l, sep ∉ p := by
  induction l with
  | nil =>
    intro p hp
    simp [pySplitCh] at hp
    subst hp
    simp
  | cons c cs ih =>
    intro p hp
    simp only [pySplitCh] at hp
    by_cases h : c = sep
    · rw [if_pos h] at hp
      rcases List.mem_cons.mp hp with h1 | h1
      · subst h1; simp
      · exact ih p h1
    · rw [if_neg h] at hp
      obtain ⟨q, qs, hq⟩ := List.exists_cons_of_ne_nil (pySplitCh_ne_nil sep cs)
      rw [hq] at hp
      rcases List.mem_cons.mp hp with h1 | h1
      · subst h1
        intro hmem
        rcases List.mem_cons.mp hmem with h2 | h2
        · exact h h2.symm
        · simp only [List.headD_cons] at h2
          exact ih q (by rw [hq]; exact List.mem_cons_self q qs) h2
      · simp only [List.tail_cons] at h1
        exact ih p (by rw [hq]; exact List.mem_cons_of_mem q h1)

lemma dropWhile_append_of_all {p : Char → Bool} (ys zs : List Char)
    (h : ∀ c ∈ ys, p c = true) :
    List.dropWhile p (ys ++ zs) = List.dropWhile p zs := by
  induction ys with
  | nil => rfl
  | cons a ys ih =>
    rw [List.cons_append, List.dropWhile_cons]
    rw [h a (List.mem_cons_self a ys)]
    simp only [if_true]
    exact ih (fun c hc => h c (List.mem_cons_of_mem a hc))

lemma specBaseList_append (x y : List Char) (hy : '_' ∉ y) :
    specBaseList (x ++ '_' :: y) = x := by
  unfold specBaseList
  rw [List.reverse_append, List.reverse_cons]
  rw [List.append_assoc, List.singleton_append]
  rw [dropWhile_append_of_all y.reverse ('_' :: x.reverse)
      (fun c hc => by
        have : c ∈ y := List.mem_reverse.mp hc
        have hne : c ≠ '_' := fun hh => hy (hh ▸ this)
        simpa using hne)]
  rw [List.dropWhile_cons]
  simp

lemma dropLast_length_pySplitCh (l : List Char) :
    ((pySplitCh '_' l).dropLast).length = l.count '_' := by
  rw [List.length_dropLast, length_pySplitCh]
  omega

lemma check_samplename_none (s1 s2 s3 : String) (h : '_' ∉ s1.toList) :
    check_samplename s1 s2 s3 = none := by
  unfold check_samplename
  rw [if_neg]
  rw [dropLast_length_pySplitCh]
  simp only [Nat.not_lt, Nat.le_zero, List.count_eq_zero]
  exact h

lemma check_samplename_some (s1 s2 s3 : String) (h : '_' ∈ s1.toList) :
    check_samplename s1 s2 s3 =
      some ((pyBase s1 == pyBase s2) && (pyBase s2 == pyBase s3)) := by
  unfold check_samplename
  rw [if_pos]
  rw [dropLast_length_pySplitCh]
  exact List.count_pos_iff.mpr h

lemma pyBaseList_of_not_mem (l : List Char) (h : '_' ∉ l) : pyBaseList l = [] := by
  unfold pyBaseList
  have hlen : (pySplitCh '_' l).length = 1 := by
    rw [length_pySplitCh, List.count_eq_zero.mpr h]
  obtain ⟨x, hx⟩ := List.length_eq_one.mp hlen
  rw [hx]
  simp

lemma count_one_split (l : List Char) (h : l.count '_' = 1) :
    pyBaseList l = specBaseList l := by
  have hlen : (pySplitCh '_' l).length = 2 := by rw [length_pySplitCh, h]
  obtain ⟨x, y, hxy⟩ := List.length_eq_two.mp hlen
  have hl : l = x ++ '_' :: y := by
    have hj := joinSep_pySplitCh '_' l
    rw [hxy] at hj
    simpa [joinSep] using hj.symm
  have hy : '_' ∉ y := pySplitCh_sep_not_mem '_' l y (by rw [hxy]; simp)
  have hpb : pyBaseList l = x := by
    unfold pyBaseList
    rw [hxy]
    simp
  have hsb : specBaseList l = x := by
    rw [hl]
    exact specBaseList_append x y hy
  rw [hpb, hsb]

/-- C1 (counterexample): with a multi-underscore first name, the validator
joins the leading segments WITHOUT separators, so "A_B_1" and "AB_2" get the
same code-computed base "AB" and the triple validates, although their
spec-defined bases (trailing suffix removed) differ. -/
theorem C1_cex :
    check_samplename "A_B_1" "AB_2" "AB_3" = some true ∧
    specBase "A_B_1" ≠ specBase "AB_2" := by decide

/-- C1 (amended): for triples of names each containing an underscore,
`check_samplename` returns `some true` iff the three names agree on the base
computed by concatenating all underscore-separated segments but the last
without separators; when every name contains exactly one underscore this
coincides with the spec's base (name with the trailing suffix removed). -/
theorem C1_amended (s1 s2 s3 : String)
    (h1 : '_' ∈ s1.toList) (_h2 : '_' ∈ s2.toList) (_h3 : '_' ∈ s3.toList) :
    (check_samplename s1 s2 s3 = some true ↔
      (pyBase s1 = pyBase s2 ∧ pyBase s2 = pyBase s3)) ∧
    (s1.toList.count '_' = 1 → s2.toList.count '_' = 1 → s3.toList.count '_' = 1 →
      (check_samplename s1 s2 s3 = some true ↔
        (specBase s1 = specBase s2 ∧ specBase s2 = specBase s3))) := by
  have hsome := check_samplename_some s1 s2 s3 h1
  constructor
  · rw [hsome]
    simp
  · intro c1 c2 c3
    have e1 : pyBase s1 = specBase s1 := congrArg String.mk (count_one_split _ c1)
    have e2 : pyBase s2 = specBase s2 := congrArg String.mk (count_one_split _ c2)
    have e3 : pyBase s3 = specBase s3 := congrArg String.mk (count_one_split _ c3)
    rw [hsome, e1, e2, e3]
    simp

theorem C1_amended_w : check_samplename "X_1" "X_2" "X_3" = some true :=
  (C1_amended "X_1" "X_2" "X_3" (by decide) (by decide) (by decide)).1.mpr
    ⟨by decide, by decide⟩

/-- C8 (counterexample): when the FIRST name contains no underscore the guard
on line 100 fails, `base1` is never assigned, and line 105 raises `NameError`
- the function does not return a boolean, and three underscore-free names do
not validate as true. -/
theorem C8_cex : check_samplename "A" "B" "C" = none := by decide

/-- C8 (amended): if the first name has no underscore, `check_samplename`
raises (`none`); if the first name has an underscore it does return a
boolean, and underscore-free second/third names contribute an empty base, so
the result is `pyBase s1 == ""` when both others lack underscores. -/
theorem C8_amended (s1 s2 s3 : String) :
    ('_' ∉ s1.toList → check_samplename s1 s2 s3 = none) ∧
    ('_' ∈ s1.toList → check_samplename s1 s2 s3 =
        some ((pyBase s1 == pyBase s2) && (pyBase s2 == pyBase s3))) ∧
    ('_' ∈ s1.toList → '_' ∉ s2.toList → '_' ∉ s3.toList →
      check_samplename s1 s2 s3 = some (pyBase s1 == "")) := by
  refine ⟨fun h => check_samplename_none s1 s2 s3 h,
          fun h => check_samplename_some s1 s2 s3 h,
          fun h h2 h3 => ?_⟩
  rw [check_samplename_some s1 s2 s3 h]
  have e2 : pyBase s2 = "" := by
    unfold pyBase
    rw [pyBaseList_of_not_mem _ h2]
  have e3 : pyBase s3 = "" := by
    unfold pyBase
    rw [pyBaseList_of_not_mem _ h3]
  rw [e2, e3]
  simp

theorem C8_amended_w : check_samplename "A_1" "B" "C" = some (pyBase "A_1" == "") :=
  (C8_amended "A_1" "B" "C").2.2 (by decide) (by decide) (by decide)

lemma npMean_three (a b c : ℝ) : npMean [a, b, c] = (a + b + c) / 3 := by
  unfold npMean
  simp [List.sum_cons]
  ring

lemma npStd_three (a b c : ℝ) :
    npStd [a, b, c] = Real.sqrt
      (((a - (a + b + c) / 3) ^ 2 + (b - (a + b + c) / 3) ^ 2 +
        (c - (a + b + c) / 3) ^ 2) / 3) := by
  unfold npStd
  rw [npMean_three]
  simp [List.sum_cons]
  ring_nf

lemma columns_getElem? :
    ∀ (xs ys zs : List ℝ) (i : ℕ), xs.length = ys.length → ys.length = zs.length →
      i < xs.length →
      (columns xs ys zs)[i]? = some [xs.getD i 0, ys.getD i 0, zs.getD i 0] := by
  intro xs
  induction xs with
  | nil =>
    intro ys zs i _ _ hi
    simp at hi
  | cons a as ih =>
    intro ys zs i h1 h2 hi
    cases ys with
    | nil => simp at h1
    | cons b bs =>
      cases zs with
      | nil => simp at h2
      | cons c cs =>
        cases i with
        | zero => simp [columns]
        | succ n =>
          simp only [columns, List.getElem?_cons_succ, List.getD_cons_succ]
          exact ih bs cs n (by simpa using h1) (by simpa using h2) (by simpa using hi)

lemma aggMean_getD (xs ys zs : List ℝ) (i : ℕ)
    (hxy : xs.length = ys.length) (hyz : ys.length = zs.length) (hi : i < xs.length) :
    (aggMean xs ys zs).getD i 0 = npMean [xs.getD i 0, ys.getD i 0, zs.getD i 0] := by
  unfold aggMean
  rw [List.getD_eq_getElem?_getD, List.getElem?_map,
    columns_getElem? xs ys zs i hxy hyz hi]
  rfl

lemma aggStd_getD (xs ys zs : List ℝ) (i : ℕ)
    (hxy : xs.length = ys.length) (hyz : ys.length = zs.length) (hi : i < xs.length) :
    (aggStd xs ys zs).getD i 0 = npStd [xs.getD i 0, ys.getD i 0, zs.getD i 0] := by
  unfold aggStd
  rw [List.getD_eq_getElem?_getD, List.getElem?_map,
    columns_getElem? xs ys zs i hxy hyz hi]
  rfl

/-- C2: the Aggregator's mean at each shared index is the arithmetic mean of
the three readings there, and its standard deviation is the population
standard deviation (divisor 3); moreover at the readings 0, 0, 3 it differs
from the sample standard deviation (divisor 2), witnessing `ddof=0`. -/
theorem C2_aggregator (xs ys zs : List ℝ) (i : ℕ)
    (hxy : xs.length = ys.length) (hyz : ys.length = zs.length) (hi : i < xs.length) :
    (aggMean xs ys zs).getD i 0 = (xs.getD i 0 + ys.getD i 0 + zs.getD i 0) / 3 ∧
    (aggStd xs ys zs).getD i 0 = Real.sqrt
      (((xs.getD i 0 - (xs.getD i 0 + ys.getD i 0 + zs.getD i 0) / 3) ^ 2 +
        (ys.getD i 0 - (xs.getD i 0 + ys.getD i 0 + zs.getD i 0) / 3) ^ 2 +
        (zs.getD i 0 - (xs.getD i 0 + ys.getD i 0 + zs.getD i 0) / 3) ^ 2) / 3) ∧
    (aggStd [0] [0] [3]).getD 0 0 ≠ Real.sqrt
      ((((0 : ℝ) - (0 + 0 + 3) / 3) ^ 2 + ((0 : ℝ) - (0 + 0 + 3) / 3) ^ 2 +
        ((3 : ℝ) - (0 + 0 + 3) / 3) ^ 2) / 2) := by
  refine ⟨?_, ?_, ?_⟩
  · rw [aggMean_getD xs ys zs i hxy hyz hi, npMean_three]
  · rw [aggStd_getD xs ys zs i hxy hyz hi, npStd_three]
  · have hlhs : (aggStd [(0 : ℝ)] [0] [3]).getD 0 0 = Real.sqrt 2 := by
      rw [aggStd_getD [(0 : ℝ)] [0] [3] 0 rfl rfl (by norm_num), npStd_three]
      norm_num
    have hrhs : Real.sqrt
        ((((0 : ℝ) - (0 + 0 + 3) / 3) ^ 2 + ((0 : ℝ) - (0 + 0 + 3) / 3) ^ 2 +
          ((3 : ℝ) - (0 + 0 + 3) / 3) ^ 2) / 2) = Real.sqrt 3 := by
      norm_num
    rw [hlhs, hrhs]
    intro h
    have h23 : (2 : ℝ) = 3 :=
      (Real.sqrt_inj (by norm_num) (by norm_num)).mp h
    norm_num at h23

theorem C2_aggregator_w :
    (aggMean [(0 : ℝ)] [0] [3]).getD 0 0 =
      (([(0 : ℝ)].getD 0 0) + ([(0 : ℝ)].getD 0 0) + ([(3 : ℝ)].getD 0 0)) / 3 ∧
    (aggStd [(0 : ℝ)] [0] [3]).getD 0 0 = Real.sqrt
      ((([(0 : ℝ)].getD 0 0 -
          ([(0 : ℝ)].getD 0 0 + [(0 : ℝ)].getD 0 0 + [(3 : ℝ)].getD 0 0) / 3) ^ 2 +
        ([(0 : ℝ)].getD 0 0 -
          ([(0 : ℝ)].getD 0 0 + [(0 : ℝ)].getD 0 0 + [(3 : ℝ)].getD 0 0) / 3) ^ 2 +
        ([(3 : ℝ)].getD 0 0 -
          ([(0 : ℝ)].getD 0 0 + [(0 : ℝ)].getD 0 0 + [(3 : ℝ)].getD 0 0) / 3) ^ 2) / 3) ∧
    (aggStd [0] [0] [3]).getD 0 0 ≠ Real.sqrt
      ((((0 : ℝ) - (0 + 0 + 3) / 3) ^ 2 + ((0 : ℝ) - (0 + 0 + 3) / 3) ^ 2 +
        ((3 : ℝ) - (0 + 0 + 3) / 3) ^ 2) / 2) :=
  C2_aggregator [(0 : ℝ)] [0] [3] 0 rfl rfl (by norm_num)

lemma pyIndex_of_bounds (n : Nat) (i : Int) (h0 : 0 ≤ i) (hn : i ≤ n) :
    pyIndex n i = i := by
  unfold pyIndex
  rw [if_neg (by omega)]
  exact min_eq_left hn

lemma pySliceList_of_bounds (l : List Char) (a b : Int)
    (h0 : 0 ≤ a) (hab : a ≤ b) (hb : b ≤ l.length) :
    pySliceList l a b = (l.drop a.toNat).take (b - a).toNat := by
  unfold pySliceList
  rw [pyIndex_of_bounds l.length a h0 (le_trans hab hb),
    pyIndex_of_bounds l.length b (le_trans h0 hab) hb]

lemma pySliceList_length (l : List Char) (a b : Int)
    (h0 : 0 ≤ a) (hab : a ≤ b) (hb : b ≤ l.length) :
    (pySliceList l a b).length = (b - a).toNat := by
  rw [pySliceList_of_bounds l a b h0 hab hb]
  rw [List.length_take, List.length_drop]
  omega

lemma extractRecord_of_bounds (r : FastaRecord) (s e : Int)
    (tl tp : String) (rest : List String)
    (htoks : (pySplit r.description ' ').reverse = tl :: tp :: rest)
    (he : pyInt? tl = some e) (hs : pyInt? tp = some s)
    (h1 : 1 ≤ s) (hse : s ≤ e) (hlen : e - 1 ≤ (r.seq.length : Int)) :
    extractRecord r = some
      { id := r.id ++ "-trimmed"
        description := toString (s - 1) ++ "-" ++ toString (e - 1) ++ " "
          ++ toString (e - s).toNat
        seq := pySlice r.seq (s - 1) (e - 1) } ∧
    (pySlice r.seq (s - 1) (e - 1)).toList =
      (r.seq.toList.drop (s - 1).toNat).take (e - s).toNat ∧
    (pySlice r.seq (s - 1) (e - 1)).length = (e - s).toNat := by
  have hb : (e - 1 : Int) ≤ (r.seq.toList.length : Int) := by
    have : r.seq.toList.length = r.seq.length := rfl
    omega
  have hslice : pySliceList r.seq.toList (s - 1) (e - 1) =
      (r.seq.toList.drop (s - 1).toNat).take (e - s).toNat := by
    rw [pySliceList_of_bounds r.seq.toList (s - 1) (e - 1) (by omega) (by omega) hb]
    congr 1
    omega
  have hlength : (pySlice r.seq (s - 1) (e - 1)).length = (e - s).toNat := by
    show (pySliceList r.seq.toList (s - 1) (e - 1)).length = (e - s).toNat
    rw [pySliceList_length r.seq.toList (s - 1) (e - 1) (by omega) (by omega) hb]
    congr 1
    omega
  refine ⟨?_, hslice, hlength⟩
  unfold extractRecord
  rw [htoks]
  simp only [he, hs, Option.some.injEq]
  congr 1
  rw [hlength]

/-- C6 (counterexample): for description tokens "2 4" on sequence "ABCDE" the
script slices `seq[1:3]` and returns "BC" (length 2), not the slice from
index s-1 up to but excluding e, which would be "BCD" (length e-s+1 = 3). -/
theorem C6_cex :
    extractRecord ⟨"r", "r 2 4", "ABCDE"⟩ = some ⟨"r-trimmed", "1-3 2", "BC"⟩ ∧
    pySlice "ABCDE" (2 - 1) 4 = "BCD" ∧
    ("BC" : String) ≠ "BCD" := by decide

/-- C6 (amended): for a record whose description ends in integer tokens s, e
with 1 ≤ s ≤ e ≤ len(seq), the extractor slices the 0-based HALF-OPEN range
[s-1, e-1) - both endpoints shifted down by one - so the output has length
e-s and the final base of the 1-based inclusive range [s, e] is dropped. -/
theorem C6_amended (r : FastaRecord) (s e : Int)
    (tl tp : String) (rest : List String)
    (htoks : (pySplit r.description ' ').reverse = tl :: tp :: rest)
    (he : pyInt? tl = some e) (hs : pyInt? tp = some s)
    (h1 : 1 ≤ s) (hse : s ≤ e) (hlen : e ≤ (r.seq.length : Int)) :
    ∃ out, extractRecord r = some out ∧
      out.seq.toList = (r.seq.toList.drop (s - 1).toNat).take (e - s).toNat ∧
      out.seq.length = (e - s).toNat ∧
      out.id = r.id ++ "-trimmed" ∧
      out.description = toString (s - 1) ++ "-" ++ toString (e - 1) ++ " "
        ++ toString (e - s).toNat := by
  obtain ⟨hrec, hslice, hlength⟩ :=
    extractRecord_of_bounds r s e tl tp rest htoks he hs h1 hse (by omega)
  exact ⟨_, hrec, hslice, hlength, rfl, rfl⟩

theorem C6_amended_w :
    ∃ out, extractRecord ⟨"r", "r 2 4", "ABCDE"⟩ = some out ∧
      out.seq.toList =
        ((("ABCDE" : String).toList).drop ((2 : Int) - 1).toNat).take ((4 - 2 : Int)).toNat ∧
      out.seq.length = ((4 - 2 : Int)).toNat ∧
      out.id = "r" ++ "-trimmed" ∧
      out.description = toString ((2 : Int) - 1) ++ "-" ++ toString ((4 : Int) - 1) ++ " "
        ++ toString ((4 - 2 : Int)).toNat :=
  C6_amended ⟨"r", "r 2 4", "ABCDE"⟩ 2 4 "4" "2" ["r"] (by decide) (by decide)
    (by decide) (by decide) (by decide) (by decide)

/-- C7: a record whose description ends in the tokens "10 50" and whose
sequence has at least 49 characters is extracted to the 0-based half-open
slice [9, 49) of length 40, with output description "9-49 40". -/
theorem C7_extractor (r : FastaRecord) (rest : List String)
    (htoks : (pySplit r.description ' ').reverse = "50" :: "10" :: rest)
    (hlen : 49 ≤ r.seq.length) :
    extractRecord r = some ⟨r.id ++ "-trimmed", "9-49 40", pySlice r.seq 9 49⟩ ∧
    (pySlice r.seq 9 49).toList = (r.seq.toList.drop 9).take 40 ∧
    (pySlice r.seq 9 49).length = 40 := by
  obtain ⟨hrec, hslice, hlength⟩ :=
    extractRecord_of_bounds r 10 50 "50" "10" rest htoks (by decide) (by decide)
      (by decide) (by decide) (by omega)
  refine ⟨?_, ?_, ?_⟩
  · rw [hrec]
    norm_num
    decide
  · simpa using hslice
  · simpa using hlength

theorem C7_extractor_w :
    extractRecord ⟨"seq1", "seq1 10 50",
        "AAAAAAAAAAAAAAAAAAAAAAAAAAAAAAAAAAAAAAAAAAAAAAAAAA"⟩ =
      some ⟨"seq1" ++ "-trimmed", "9-49 40",
        pySlice "AAAAAAAAAAAAAAAAAAAAAAAAAAAAAAAAAAAAAAAAAAAAAAAAAA" 9 49⟩ ∧
    (pySlice "AAAAAAAAAAAAAAAAAAAAAAAAAAAAAAAAAAAAAAAAAAAAAAAAAA" 9 49).toList =
      ((("AAAAAAAAAAAAAAAAAAAAAAAAAAAAAAAAAAAAAAAAAAAAAAAAAA" : String).toList).drop 9).take 40 ∧
    (pySlice "AAAAAAAAAAAAAAAAAAAAAAAAAAAAAAAAAAAAAAAAAAAAAAAAAA" 9 49).length = 40 :=
  C7_extractor ⟨"seq1", "seq1 10 50",
      "AAAAAAAAAAAAAAAAAAAAAAAAAAAAAAAAAAAAAAAAAAAAAAAAAA"⟩ ["seq1"]
    (by decide) (by decide)

/-- C3 (code evaluation): data columns Time, X_1, X_2, X_3 with subgroups
line "X_1 X_2 X_40" - the absent name X_40 sits in position 3 of its run, so
the mis-parenthesised membership condition is false, the script does NOT
exit, opens plot_subgroups.pdf, and only then crashes on the missing column. -/
theorem C3_eval :
    runPipelineA true ["Time", "X_1", "X_2", "X_3"] (some ["X_1\tX_2\tX_40"]) =
      [Event.created "plot_allsamples.pdf", Event.created "plot_triplicates.pdf",
       Event.created "plot_subgroups.pdf", Event.crashed] := by decide

/-- C9 (code evaluation): with an unparseable y-limit the except branch only
prints (no `sys.exit`), so the script continues through loading, validation
and PLOT 1 - creating plot_allsamples.pdf - before dying of `NameError` at
`plt.ylim(0, ylimit)`. -/
theorem C9_eval :
    runPipelineA false ["Time", "X_1", "X_2", "X_3"] none =
      [Event.printed msgYlimit, Event.created "plot_allsamples.pdf",
       Event.crashed] := by decide

/-- C4 (counterexample): a triplicate-naming failure in the subgroups file
terminates the run, yet plot_allsamples.pdf and plot_triplicates.pdf have
already been created - the claim "no output file at all" is false. -/
theorem C4_cex :
    Event.exited ∈
      runPipelineA true ["Time", "X_1", "X_2", "X_3"] (some ["X_1\tX_2\tY_3"]) ∧
    Event.created "plot_allsamples.pdf" ∈
      runPipelineA true ["Time", "X_1", "X_2", "X_3"] (some ["X_1\tX_2\tY_3"]) ∧
    Event.created "plot_triplicates.pdf" ∈
      runPipelineA true ["Time", "X_1", "X_2", "X_3"] (some ["X_1\tX_2\tY_3"]) := by
  decide

/-- C4 (amended): data-file validation failures (sample count not a multiple
of three, or bad triplicate naming in the data file) occur before any output
is opened, so no output file is produced; but a subgroups-file validation
failure is only detected AFTER plot_allsamples.pdf and plot_triplicates.pdf
have been written, and terminates before plot_subgroups.pdf is created. -/
theorem C4_amended :
    (∀ (y : Bool) (cols : List String) (sg : Option (List String)) (f : String),
        ((cols.length - 1) % 3 ≠ 0 ∨ runChecks (cols.drop 1) = CheckRes.failed) →
        Event.created f ∉ runPipelineA y cols sg) ∧
    (∀ (cols : List String) (lines : List String),
        "Time" ∈ cols →
        (cols.length - 1) % 3 = 0 →
        runChecks (cols.drop 1) = CheckRes.allOk →
        (validateLines cols lines = ValRes.exitBadNames ∨
          validateLines cols lines = ValRes.exitBadMembership) →
        Event.created "plot_allsamples.pdf" ∈ runPipelineA true cols (some lines) ∧
        Event.created "plot_triplicates.pdf" ∈ runPipelineA true cols (some lines) ∧
        Event.created "plot_subgroups.pdf" ∉ runPipelineA true cols (some lines) ∧
        Event.exited ∈ runPipelineA true cols (some lines)) := by
  constructor
  · intro y cols sg f hOr
    unfold runPipelineA
    by_cases hT : "Time" ∈ cols
    · rw [if_pos hT]
      rcases hOr with hMod | hChk
      · rw [if_pos hMod]
        cases y <;> simp
      · by_cases hMod : (cols.length - 1) % 3 ≠ 0
        · rw [if_pos hMod]
          cases y <;> simp
        · rw [if_neg hMod, hChk]
          cases y <;> simp
    · rw [if_neg hT]
      cases y <;> simp
  · intro cols lines hT hMod hChk hVal
    have ht1 : ∀ m, runPipelineA true cols (some lines) =
        [Event.created "plot_allsamples.pdf", Event.created "plot_triplicates.pdf",
         Event.printed m, Event.exited] →
        Event.created "plot_allsamples.pdf" ∈ runPipelineA true cols (some lines) ∧
        Event.created "plot_triplicates.pdf" ∈ runPipelineA true cols (some lines) ∧
        Event.created "plot_subgroups.pdf" ∉ runPipelineA true cols (some lines) ∧
        Event.exited ∈ runPipelineA true cols (some lines) := by
      intro m hm
      rw [hm]
      refine ⟨by simp, by simp, ?_, by simp⟩
      simp only [List.mem_cons, List.mem_singleton]
      intro hmem
      rcases hmem with h | h | h | h <;> simp_all
    rcases hVal with hv | hv
    · exact ht1 msgSubNames (by
        unfold runPipelineA
        rw [if_pos hT, if_neg (by omega), hChk]
        simp [hv])
    · exact ht1 msgSubMembership (by
        unfold runPipelineA
        rw [if_pos hT, if_neg (by omega), hChk]
        simp [hv])

theorem C4_amended_w :
    (Event.created "plot_allsamples.pdf" ∉ runPipelineA true ["Time", "X_1"] none) ∧
    (Event.created "plot_allsamples.pdf" ∈
        runPipelineA true ["Time", "X_1", "X_2", "X_3"] (some ["X_1\tX_2\tY_3"]) ∧
      Event.created "plot_triplicates.pdf" ∈
        runPipelineA true ["Time", "X_1", "X_2", "X_3"] (some ["X_1\tX_2\tY_3"]) ∧
      Event.created "plot_subgroups.pdf" ∉
        runPipelineA true ["Time", "X_1", "X_2", "X_3"] (some ["X_1\tX_2\tY_3"]) ∧
      Event.exited ∈
        runPipelineA true ["Time", "X_1", "X_2", "X_3"] (some ["X_1\tX_2\tY_3"])) :=
  ⟨C4_amended.1 true ["Time", "X_1"] none "plot_allsamples.pdf" (Or.inl (by decide)),
   C4_amended.2 ["Time", "X_1", "X_2", "X_3"] ["X_1\tX_2\tY_3"] (by decide) (by decide)
     (by decide) (Or.inl (by decide))⟩

/-- C5 (counterexample): with lucy exit code 1 and an existing one-record
output, STEP 3 is NOT skipped - the trimmed file is written for that file;
and with exit code 1 and a missing output file the parse raises, terminating
the batch so the next file is never processed. -/
theorem C5_cex :
    BEvent.wrote "a_trimmed.fasta" [⟨"s1-trimmed", "0-1 1", "A"⟩] ∈
      runBatch [⟨"a", 1, some [⟨"s1", "s1 1 2", "ACGT"⟩]⟩] ∧
    runBatch [⟨"a", 1, none⟩, ⟨"b", 0, some [⟨"s1", "s1 1 2", "ACGT"⟩]⟩] =
      [BEvent.printed "Whoops, something went wrong with Lucy!", BEvent.crashed] := by
  decide

/-- C5 (amended): the lucy exit code influences only the log message printed
by lines 63-66 - everything after the first printed event, including whether
STEP 3 runs and whether the file crashes the batch, is identical to an
exit-code-0 run; a file whose processing does not raise lets the batch
continue, and a raising file terminates the batch. -/
theorem C5_amended :
    (∀ (n : String) (e : Int) (out : Option (List FastaRecord)),
        (processOne ⟨n, e, out⟩).1.drop 1 = (processOne ⟨n, 0, out⟩).1.drop 1 ∧
        (processOne ⟨n, e, out⟩).2 = (processOne ⟨n, 0, out⟩).2) ∧
    (∀ (lr : LucyRun) (rest : List LucyRun),
        (processOne lr).2 = false →
        runBatch (lr :: rest) = (processOne lr).1 ++ runBatch rest) ∧
    (∀ (lr : LucyRun) (rest : List LucyRun),
        (processOne lr).2 = true →
        runBatch (lr :: rest) = (processOne lr).1) := by
  refine ⟨?_, ?_, ?_⟩
  · intro n e out
    cases out with
    | none => simp [processOne]
    | some records =>
      by_cases hc : step3Crashes records <;> simp [processOne, hc]
  · intro lr rest h
    rcases hp : processOne lr with ⟨ev, c⟩
    rw [hp] at h
    simp at h
    subst h
    rw [runBatch, hp]
  · intro lr rest h
    rcases hp : processOne lr with ⟨ev, c⟩
    rw [hp] at h
    simp at h
    subst h
    rw [runBatch, hp]

theorem C5_amended_w :
    runBatch [(⟨"a", 1, some [⟨"s1", "s1 1 2", "ACGT"⟩]⟩ : LucyRun)] =
      (processOne ⟨"a", 1, some [⟨"s1", "s1 1 2", "ACGT"⟩]⟩).1 ++ runBatch [] :=
  C5_amended.2.1 ⟨"a", 1, some [⟨"s1", "s1 1 2", "ACGT"⟩]⟩ [] (by decide)

/-- C10 (counterexample): two well-formed records in the lucy output, yet the
final trimmed file holds exactly one record (the one derived from the second
input record) because each `SeqIO.write(filename)` call truncates the file. -/
theorem C10_cex :
    step3Final [⟨"a", "a 1 2", "ACGT"⟩, ⟨"b", "b 1 3", "ACGT"⟩] none =
      some (some [⟨"b-trimmed", "0-2 2", "AC"⟩]) ∧
    [(⟨"b-trimmed", "0-2 2", "AC"⟩ : FastaRecord)].length = 1 ∧
    [⟨"a", "a 1 2", "ACGT"⟩, (⟨"b", "b 1 3", "ACGT"⟩ : FastaRecord)].length = 2 := by
  decide

/-- C10 (amended): for a non-empty list of records that all extract
successfully, the trimmed output file ends up containing exactly the single
record derived from the LAST record of the lucy output; all earlier records
are overwritten. -/
theorem C10_amended (rs : List FastaRecord) (fs : Option (List FastaRecord))
    (h : ∀ r ∈ rs, (extractRecord r).isSome = true) (hne : rs ≠ []) :
    ∃ lastr v, rs.getLast? = some lastr ∧ extractRecord lastr = some v ∧
      step3Final rs fs = some (some [v]) := by
  induction rs generalizing fs with
  | nil => exact absurd rfl hne
  | cons r rest ih =>
    have hr := h r (List.mem_cons_self r rest)
    obtain ⟨nr, hnr⟩ := Option.isSome_iff_exists.mp hr
    cases rest with
    | nil =>
      refine ⟨r, nr, by simp, hnr, ?_⟩
      simp [step3Final, hnr]
    | cons q qs =>
      obtain ⟨lastr, v, h1, h2, h3⟩ :=
        ih (some [nr]) (fun x hx => h x (List.mem_cons_of_mem r hx)) (by simp)
      refine ⟨lastr, v, ?_, h2, ?_⟩
      · rw [List.getLast?_cons_cons]
        exact h1
      · simp only [step3Final, hnr]
        exact h3

theorem C10_amended_w :
    ∃ lastr v,
      [⟨"a", "a 1 2", "ACGT"⟩, (⟨"b", "b 1 3", "ACGT"⟩ : FastaRecord)].getLast? =
        some lastr ∧
      extractRecord lastr = some v ∧
      step3Final [⟨"a", "a 1 2", "ACGT"⟩, ⟨"b", "b 1 3", "ACGT"⟩] none =
        some (some [v]) :=
  C10_amended [⟨"a", "a 1 2", "ACGT"⟩, ⟨"b", "b 1 3", "ACGT"⟩] none
    (by decide) (by decide)
